import Mathlib

/-!
Shallow embedding of the `python_redis_factory` configuration core:
the URI parser (`uri_parser.py`), the configuration utilities
(`config.py`), the connection-descriptor record (`interfaces.py`), and
the host-list parsing of the sentinel and cluster clients
(`clients/sentinel.py`, `clients/cluster.py`).

Python strings are modelled as `List Char`; the relevant pieces of the
standard library (`str.split`, `str.rsplit`, `str.strip`, `int()`,
`urllib.parse.urlparse`) are modelled by the `py*` functions below.
The `urlparse` model covers the fragment of its behaviour exercised by
this code on the URIs of interest: scheme extraction, netloc/path/query
splitting, and the `hostname` / `port` / `password` accessors (without
the bracketed-IPv6 path, percent-decoding, numeric underscores, or the
global tab/newline scrubbing, none of which the claims touch).
-/

abbrev Str := List Char

/-- Split at the first occurrence of `c` (Python `s.split(c, 1)` /
`s.partition(c)`); `none` when `c` does not occur. -/
def pySplit1 (c : Char) : Str → Option (Str × Str)
  | [] => none
  | x :: xs =>
    if x = c then some ([], xs)
    else (pySplit1 c xs).map (fun p => (x :: p.1, p.2))

/-- Split at the last occurrence of `c` (Python `s.rsplit(c, 1)` /
`s.rpartition(c)`); `none` when `c` does not occur. -/
def pyRSplit1 (c : Char) (s : Str) : Option (Str × Str) :=
  (pySplit1 c s.reverse).map (fun p => (p.2.reverse, p.1.reverse))

/-- Full split on a separator, Python `s.split(c)`: keeps empty pieces,
and `"".split(c) = [""]`. -/
def pySplitAll (c : Char) : Str → List Str
  | [] => [[]]
  | x :: xs =>
    if x = c then [] :: pySplitAll c xs
    else
      match pySplitAll c xs with
      | [] => [[x]]
      | h :: t => (x :: h) :: t

/-- The whitespace characters stripped by Python `str.strip()`
(ASCII subset). -/
def isPySpace (c : Char) : Bool :=
  c = ' ' || c = '\t' || c = '\n' || c = '\x0d' || c = '\x0b' || c = '\x0c'

/-- Python `str.strip()`. -/
def pyStrip (s : Str) : Str :=
  ((s.dropWhile isPySpace).reverse.dropWhile isPySpace).reverse

/-- Python `str.lower()` (ASCII). -/
def pyToLower (s : Str) : Str := s.map Char.toLower

/-- Value of a digit string, most significant first. -/
def digitsVal (s : Str) : Nat :=
  s.foldl (fun a c => 10 * a + (c.toNat - 48)) 0

/-- Digit-string parsing: `some` iff nonempty and all decimal digits. -/
def digitsToNat (s : Str) : Option Nat :=
  if s ≠ [] ∧ s.all Char.isDigit then some (digitsVal s) else none

/-- Python `int(s)` on the inputs of interest: optional surrounding
whitespace, optional single sign, then decimal digits. -/
def pyParseInt (s : Str) : Option Int :=
  match pyStrip s with
  | [] => none
  | c :: rest =>
    if c = '-' then (digitsToNat rest).map (fun n => -(n : Int))
    else if c = '+' then (digitsToNat rest).map (fun n => (n : Int))
    else (digitsToNat (c :: rest)).map (fun n => (n : Int))

/-- `breakOn p s = (before, rest)`: `before` is the longest initial
segment with no character satisfying `p`, `rest` starts at the first
character satisfying `p` (or is empty). -/
def breakOn (p : Char → Bool) : Str → Str × Str
  | [] => ([], [])
  | x :: xs =>
    if p x then ([], x :: xs)
    else
      let r := breakOn p xs
      (x :: r.1, r.2)

/-! ## Model of `urllib.parse.urlparse` -/

/-- Result of `urlparse`, restricted to the components this code reads. -/
structure PyParseResult where
  scheme : Str
  netloc : Str
  path : Str
deriving DecidableEq

def isSchemeChar (c : Char) : Bool :=
  c.isAlpha || c.isDigit || c = '+' || c = '-' || c = '.'

def headIsAlpha : Str → Bool
  | [] => false
  | c :: _ => c.isAlpha

def isNetlocDelim (c : Char) : Bool := c = '/' || c = '?' || c = '#'

/-- Drop a `#fragment` part and then a `?query` part. -/
def stripFragQuery (s : Str) : Str :=
  let noFrag :=
    match pySplit1 '#' s with
    | some (a, _) => a
    | none => s
  match pySplit1 '?' noFrag with
  | some (a, _) => a
  | none => noFrag

/-- `urllib.parse.urlparse` on the URI shapes of interest: extract the
(lower-cased) scheme before the first `:` when it is a wellformed scheme
token, then the netloc after `//` up to the first of `/?#`, then the
path with fragment and query parts removed. -/
def pyUrlparse (url : Str) : PyParseResult :=
  let sp :=
    match pySplit1 ':' url with
    | some (pre, r) =>
      if pre ≠ [] ∧ headIsAlpha pre = true ∧ pre.all isSchemeChar then
        (pyToLower pre, r)
      else ([], url)
    | none => ([], url)
  let np :=
    if sp.2.take 2 = ['/', '/'] then breakOn isNetlocDelim (sp.2.drop 2)
    else ([], sp.2)
  { scheme := sp.1, netloc := np.1, path := stripFragQuery np.2 }

/-- The `hostinfo` part of the netloc: everything after the last `@`. -/
def pyHostinfo (r : PyParseResult) : Str :=
  match pyRSplit1 '@' r.netloc with
  | some (_, h) => h
  | none => r.netloc

/-- The userinfo part of the netloc: everything before the last `@`,
`none` when there is no `@`. -/
def pyUserinfo (r : PyParseResult) : Option Str :=
  (pyRSplit1 '@' r.netloc).map Prod.fst

/-- `ParseResult.hostname`: hostinfo before the first `:`, lower-cased;
`None` when empty. -/
def pyHostname (r : PyParseResult) : Option Str :=
  let h :=
    match pySplit1 ':' (pyHostinfo r) with
    | some (h, _) => h
    | none => pyHostinfo r
  if h = [] then none else some (pyToLower h)

/-- The raw port string of the netloc, `none` when absent or empty. -/
def pyPortStr (r : PyParseResult) : Option Str :=
  match pySplit1 ':' (pyHostinfo r) with
  | some (_, p) => if p = [] then none else some p
  | none => none

/-- `ParseResult.port`: parses the port string; raises (models as
`.error`) when it is not an integer or is outside `[0, 65535]`. -/
def pyPort (r : PyParseResult) : Except Str (Option Int) :=
  match pyPortStr r with
  | none => .ok none
  | some ps =>
    match pyParseInt ps with
    | none => .error "Port could not be cast to integer value".data
    | some p =>
      if p < 0 ∨ p > 65535 then .error "Port out of range 0-65535".data
      else .ok (some p)

/-- `ParseResult.password`: the userinfo after its first `:`; `None`
when there is no userinfo or the userinfo has no `:`. -/
def pyPassword (r : PyParseResult) : Option Str :=
  (pyUserinfo r).bind fun ui => (pySplit1 ':' ui).map Prod.snd

/-! ## `interfaces.py`: the connection descriptor -/

/-- `RedisConnectionMode` (`interfaces.py`). -/
inductive RedisConnectionMode where
  | STANDALONE
  | SENTINEL
  | CLUSTER
deriving DecidableEq

/-- `RedisConnectionConfig` (`interfaces.py`), with the dataclass field
defaults.  Python `Optional` fields become `Option`; `float` timeouts
become `Rat` (only order comparisons are performed on them). -/
structure RedisConnectionConfig where
  host : Str
  port : Int := 6379
  password : Option Str := none
  db : Int := 0
  mode : RedisConnectionMode := .STANDALONE
  sentinel_hosts : Option (List Str) := none
  sentinel_password : Option Str := none
  service_name : Option Str := none
  cluster_nodes : Option (List Str) := none
  max_connections : Int := 10
  socket_timeout : Rat := 5
  socket_connect_timeout : Rat := 5
  ssl : Bool := false
  ssl_cert_reqs : Option Str := none
  ssl_ca_certs : Option Str := none
deriving DecidableEq

/-- The checks of `RedisConnectionConfig.__post_init__`, in source
order; `some msg` models a raised `ValueError`. -/
def postInitError (c : RedisConnectionConfig) : Option Str :=
  if c.port < 1 ∨ c.port > 65535 then
    some "Port must be between 1 and 65535".data
  else if c.db < 0 then
    some "Database number must be non-negative".data
  else if c.max_connections < 1 then
    some "Max connections must be at least 1".data
  else if c.socket_timeout < 0 then
    some "Socket timeout must be non-negative".data
  else if c.socket_connect_timeout < 0 then
    some "Socket connect timeout must be non-negative".data
  else none

/-- Construction of a `RedisConnectionConfig`: the dataclass constructor
runs `__post_init__`, so building a descriptor can raise. -/
def mkConfig (c : RedisConnectionConfig) : Except Str RedisConnectionConfig :=
  match postInitError c with
  | some e => .error e
  | none => .ok c

/-! ## `uri_parser.py` -/

/-- `_determine_connection_mode`. -/
def determineConnectionMode (scheme : Str) : Except Str RedisConnectionMode :=
  if scheme = "redis".data ∨ scheme = "rediss".data then .ok .STANDALONE
  else if scheme = "redis+sentinel".data then .ok .SENTINEL
  else if scheme = "redis+cluster".data then .ok .CLUSTER
  else .error ("Invalid Redis URI scheme: ".data ++ scheme)

/-- The `if parsed.password: password = parsed.password` idiom shared by
the three URI parsers: the empty password string is falsy. -/
def uriPassword (p : PyParseResult) : Option Str :=
  match pyPassword p with
  | some pw => if pw = [] then none else some pw
  | none => none

/-- Python `parsed.port or 6379`: both `None` and `0` fall back. -/
def standalonePort (portOpt : Option Int) : Int :=
  match portOpt with
  | none => 6379
  | some v => if v = 0 then 6379 else v

/-- The database-index extraction of `_parse_standalone_uri`. -/
def standaloneDb (path : Str) : Except Str Int :=
  if path ≠ [] ∧ path.length > 1 then
    match pyParseInt (path.drop 1) with
    | none => .error "Invalid database number".data
    | some d =>
      if d < 0 then .error "Invalid database number".data else .ok d
  else .ok 0

/-- `_parse_standalone_uri`. -/
def parseStandaloneUri (p : PyParseResult) : Except Str RedisConnectionConfig :=
  match pyPort p with
  | .error _ => .error "Invalid port number".data
  | .ok portOpt =>
    match standaloneDb p.path with
    | .error e => .error e
    | .ok db =>
      mkConfig { host := (pyHostname p).getD "localhost".data
                 port := standalonePort portOpt
                 password := uriPassword p
                 db := db
                 mode := .STANDALONE
                 ssl := p.scheme = "rediss".data }

/-- `_parse_host_list`: strip an optional userinfo part (everything
before the first `@`), split the rest on commas, strip whitespace, and
drop empty pieces. -/
def parseHostList (netloc : Str) : List Str :=
  if netloc = [] then []
  else
    ((pySplitAll ','
        (match pySplit1 '@' netloc with
         | some (_, rest) => rest
         | none => netloc)).map pyStrip).filter (· ≠ [])

/-- `_parse_host_port`: split on the last colon; a missing colon means
the default port 6379 (in every mode); a port outside `[1, 65535]` or a
non-integer port raises "Invalid port number". -/
def parseHostPort (hp : Str) : Except Str (Str × Int) :=
  match pyRSplit1 ':' hp with
  | some (h, ps) =>
    match pyParseInt ps with
    | none => .error "Invalid port number".data
    | some port =>
      if port < 1 ∨ port > 65535 then .error "Invalid port number".data
      else .ok (h, port)
  | none => .ok (hp, 6379)

/-- `_parse_sentinel_uri`. -/
def parseSentinelUri (p : PyParseResult) : Except Str RedisConnectionConfig :=
  match parseHostList p.netloc with
  | [] => .error "Sentinel URI must include at least one sentinel host".data
  | first :: rest =>
    if p.path = [] ∨ ¬ p.path.length > 1 then
      .error "Sentinel URI must include service name".data
    else
      match parseHostPort first with
      | .error e => .error e
      | .ok (host, port) =>
        mkConfig { host := host
                   port := port
                   password := uriPassword p
                   mode := .SENTINEL
                   sentinel_hosts := some (first :: rest)
                   sentinel_password := uriPassword p
                   service_name := some (p.path.drop 1) }

/-- `_parse_cluster_uri`. -/
def parseClusterUri (p : PyParseResult) : Except Str RedisConnectionConfig :=
  match parseHostList p.netloc with
  | [] => .error "Cluster URI must include at least one node".data
  | first :: rest =>
    match parseHostPort first with
    | .error e => .error e
    | .ok (host, port) =>
      mkConfig { host := host
                 port := port
                 password := uriPassword p
                 mode := .CLUSTER
                 cluster_nodes := some (first :: rest) }

/-- `parse_redis_uri`. -/
def parseRedisUri (uri : Str) : Except Str RedisConnectionConfig :=
  if uri = [] then .error "URI cannot be empty".data
  else if (pyUrlparse uri).scheme = [] then
    .error "Invalid Redis URI format".data
  else
    match determineConnectionMode (pyUrlparse uri).scheme with
    | .error e => .error e
    | .ok .STANDALONE =>
      if (pyUrlparse uri).netloc = [] then
        .error "Invalid Redis URI format".data
      else parseStandaloneUri (pyUrlparse uri)
    | .ok .SENTINEL => parseSentinelUri (pyUrlparse uri)
    | .ok .CLUSTER => parseClusterUri (pyUrlparse uri)

/-! ## `config.py` -/

/-- `merge_configs`: `dataclasses.replace(base, **overrides)` where
`overrides` keeps exactly the non-`None` attributes of `override`.  The
non-`Optional` fields (`host`, `port`, `db`, `mode`, `max_connections`,
the two timeouts, `ssl`) are never `None`, so they always come from
`override`; the `Optional` fields fall back to `base` when `None`.
`replace` re-runs `__post_init__`, hence the `Except`. -/
def mergeConfigs (base override : RedisConnectionConfig) :
    Except Str RedisConnectionConfig :=
  mkConfig
    { host := override.host
      port := override.port
      password := (override.password).orElse fun _ => base.password
      db := override.db
      mode := override.mode
      sentinel_hosts :=
        (override.sentinel_hosts).orElse fun _ => base.sentinel_hosts
      sentinel_password :=
        (override.sentinel_password).orElse fun _ => base.sentinel_password
      service_name := (override.service_name).orElse fun _ => base.service_name
      cluster_nodes :=
        (override.cluster_nodes).orElse fun _ => base.cluster_nodes
      max_connections := override.max_connections
      socket_timeout := override.socket_timeout
      socket_connect_timeout := override.socket_connect_timeout
      ssl := override.ssl
      ssl_cert_reqs := (override.ssl_cert_reqs).orElse fun _ => base.ssl_cert_reqs
      ssl_ca_certs := (override.ssl_ca_certs).orElse fun _ => base.ssl_ca_certs }

/-- `validate_config`, check for check in source order (the two
SENTINEL checks are nested under one `if` in the source; flattening
them preserves the behaviour).  Python truthiness: `not s` is true for
`None` and for the empty string / empty list. -/
def validateConfig (c : RedisConnectionConfig) : Option Str :=
  if c.host = [] ∨ pyStrip c.host = [] then
    some "Host cannot be empty".data
  else if c.mode = .SENTINEL ∧
      (c.service_name = none ∨ c.service_name = some []) then
    some "Service name is required for Sentinel mode".data
  else if c.mode = .SENTINEL ∧
      (c.sentinel_hosts = none ∨ c.sentinel_hosts = some []) then
    some "Sentinel hosts are required for Sentinel mode".data
  else if c.mode = .CLUSTER ∧
      (c.cluster_nodes = none ∨ c.cluster_nodes = some []) then
    some "Cluster nodes are required for Cluster mode".data
  else if c.ssl = true ∧ c.ssl_cert_reqs = none then
    some "SSL certificate requirements must be specified when SSL is enabled".data
  else none

/-- The `**overrides` keyword arguments of `create_config_from_uri`:
`none` models "keyword not passed". -/
structure ConfigOverrides where
  host : Option Str := none
  port : Option Int := none
  password : Option (Option Str) := none
  db : Option Int := none
  mode : Option RedisConnectionMode := none
  sentinel_hosts : Option (Option (List Str)) := none
  sentinel_password : Option (Option Str) := none
  service_name : Option (Option Str) := none
  cluster_nodes : Option (Option (List Str)) := none
  max_connections : Option Int := none
  socket_timeout : Option Rat := none
  socket_connect_timeout : Option Rat := none
  ssl : Option Bool := none
  ssl_cert_reqs : Option (Option Str) := none
  ssl_ca_certs : Option (Option Str) := none
deriving DecidableEq

/-- Python `if overrides:`: the keyword dict is nonempty. -/
def ConfigOverrides.nonEmpty (o : ConfigOverrides) : Bool :=
  o.host.isSome || o.port.isSome || o.password.isSome || o.db.isSome ||
  o.mode.isSome || o.sentinel_hosts.isSome || o.sentinel_password.isSome ||
  o.service_name.isSome || o.cluster_nodes.isSome ||
  o.max_connections.isSome || o.socket_timeout.isSome ||
  o.socket_connect_timeout.isSome || o.ssl.isSome ||
  o.ssl_cert_reqs.isSome || o.ssl_ca_certs.isSome

/-- `create_config_from_uri`: parse, apply explicit overrides (building
a fresh descriptor, which re-runs `__post_init__`), then run
`validate_config` on the result. -/
def createConfigFromUri (uri : Str) (ov : ConfigOverrides) :
    Except Str RedisConnectionConfig :=
  match parseRedisUri uri with
  | .error e => .error e
  | .ok config =>
    let applied : Except Str RedisConnectionConfig :=
      if ov.nonEmpty then
        mkConfig
          { host := ov.host.getD config.host
            port := ov.port.getD config.port
            password := ov.password.getD config.password
            db := ov.db.getD config.db
            mode := ov.mode.getD config.mode
            sentinel_hosts := ov.sentinel_hosts.getD config.sentinel_hosts
            sentinel_password :=
              ov.sentinel_password.getD config.sentinel_password
            service_name := ov.service_name.getD config.service_name
            cluster_nodes := ov.cluster_nodes.getD config.cluster_nodes
            max_connections := ov.max_connections.getD config.max_connections
            socket_timeout := ov.socket_timeout.getD config.socket_timeout
            socket_connect_timeout :=
              ov.socket_connect_timeout.getD config.socket_connect_timeout
            ssl := ov.ssl.getD config.ssl
            ssl_cert_reqs := ov.ssl_cert_reqs.getD config.ssl_cert_reqs
            ssl_ca_certs := ov.ssl_ca_certs.getD config.ssl_ca_certs }
      else .ok config
    match applied with
    | .error e => .error e
    | .ok config =>
      match validateConfig config with
      | some e => .error e
      | none => .ok config

/-! ## Client-side host-list parsing -/

/-- Loop body of `SentinelRedisClient._parse_sentinel_hosts`: split on
the FIRST colon; a missing colon means the default sentinel port 26379;
`int()` on a bad port string raises (uncaught in the source). -/
def parseSentinelHost (h : Str) : Except Str (Str × Int) :=
  match pySplit1 ':' h with
  | some (host, ps) =>
    match pyParseInt ps with
    | none => .error "invalid literal for int() with base 10".data
    | some port => .ok (host, port)
  | none => .ok (h, 26379)

/-- `SentinelRedisClient._parse_sentinel_hosts`. -/
def parseSentinelHosts (hosts : List Str) : Except Str (List (Str × Int)) :=
  hosts.mapM parseSentinelHost

/-- Loop body of `ClusterRedisClient._parse_cluster_nodes`: split on the
FIRST colon; a missing colon means the default port 6379. -/
def parseClusterNode (h : Str) : Except Str (Str × Int) :=
  match pySplit1 ':' h with
  | some (host, ps) =>
    match pyParseInt ps with
    | none => .error "invalid literal for int() with base 10".data
    | some port => .ok (host, port)
  | none => .ok (h, 6379)

/-- `ClusterRedisClient._parse_cluster_nodes` (as `(host, port)` pairs;
the `ClusterNode` wrapper adds nothing). -/
def parseClusterNodes (nodes : List Str) : Except Str (List (Str × Int)) :=
  nodes.mapM parseClusterNode

/-! ## URI rendering (used to state the universally quantified claims) -/

/-- Join a list of pieces with a separator character, with no trailing
separator (`",".join(...)`). -/
def joinSep (c : Char) : List Str → Str
  | [] => []
  | [f] => f
  | f :: g :: r => f ++ c :: joinSep c (g :: r)

/-- Characters allowed in the host / userinfo tokens of the rendered
URIs: letters, digits, `.`, `-`, `_`.  They exclude the structural
delimiters `: @ / ? # ,` and whitespace. -/
def isHostChar (c : Char) : Bool :=
  c.isAlpha || c.isDigit || c = '.' || c = '-' || c = '_'

/-- Characters allowed in a rendered sentinel/cluster host fragment:
host characters plus the `:` separating the port. -/
def isFragChar (c : Char) : Bool :=
  isHostChar c || c = ':'

/-- The optional `user:password@` part of a netloc. -/
def renderAuth : Option (Str × Str) → Str
  | none => []
  | some (u, pw) => u ++ ':' :: (pw ++ ['@'])

/-- The optional `:port` part of a netloc. -/
def renderPortStr : Option Str → Str
  | none => []
  | some ps => ':' :: ps

/-- The netloc of a standalone URI `[user:password@]host[:port]`. -/
def netlocStandalone (auth : Option (Str × Str)) (host : Str)
    (port : Option Str) : Str :=
  renderAuth auth ++ (host ++ renderPortStr port)

/-- The optional `/db` path of a standalone URI. -/
def renderDbPath : Option Str → Str
  | none => []
  | some ds => '/' :: ds

/-- `redis://[user:password@]host[:port][/db]`. -/
def renderStandalone (auth : Option (Str × Str)) (host : Str)
    (port db : Option Str) : Str :=
  "redis".data ++ ':' :: '/' :: '/' ::
    (netlocStandalone auth host port ++ renderDbPath db)

/-- The port the standalone parser recovers from an optional rendered
digit string. -/
def portValOf : Option Str → Int
  | none => 6379
  | some ps => (digitsVal ps : Int)

/-- The database index the standalone parser recovers from an optional
rendered digit string. -/
def dbValOf : Option Str → Int
  | none => 0
  | some ds => (digitsVal ds : Int)

/-- `redis+sentinel://host1[:port1],host2[:port2],.../service`. -/
def renderSentinel (frags : List Str) (svc : Str) : Str :=
  "redis+sentinel".data ++ ':' :: '/' :: '/' ::
    (joinSep ',' frags ++ '/' :: svc)

/-- `redis+cluster://host1[:port1],host2[:port2],...`. -/
def renderCluster (frags : List Str) : Str :=
  "redis+cluster".data ++ ':' :: '/' :: '/' :: joinSep ',' frags

/-! ## String lemmas -/

theorem pySplit1_of_not_mem {c : Char} {l : Str} (h : c ∉ l) :
    pySplit1 c l = none := by
  induction l with
  | nil => rfl
  | cons x xs ih =>
    have hx : x ≠ c := fun hxc => h (hxc ▸ List.mem_cons_self x xs)
    have hxs : c ∉ xs := fun hm => h (List.mem_cons_of_mem x hm)
    simp [pySplit1, hx, ih hxs]

theorem pySplit1_append {c : Char} {xs : Str} (ys : Str) (h : c ∉ xs) :
    pySplit1 c (xs ++ c :: ys) = some (xs, ys) := by
  induction xs with
  | nil => simp [pySplit1]
  | cons x xt ih =>
    have hx : x ≠ c := fun hxc => h (hxc ▸ List.mem_cons_self x xt)
    have hxt : c ∉ xt := fun hm => h (List.mem_cons_of_mem x hm)
    simp [pySplit1, hx, ih hxt]

theorem pyRSplit1_of_not_mem {c : Char} {l : Str} (h : c ∉ l) :
    pyRSplit1 c l = none := by
  have : c ∉ l.reverse := fun hm => h (List.mem_reverse.mp hm)
  simp [pyRSplit1, pySplit1_of_not_mem this]

theorem pyRSplit1_append {c : Char} (xs : Str) {ys : Str} (h : c ∉ ys) :
    pyRSplit1 c (xs ++ c :: ys) = some (xs, ys) := by
  have hrev : (xs ++ c :: ys).reverse = ys.reverse ++ c :: xs.reverse := by
    simp
  have hys : c ∉ ys.reverse := fun hm => h (List.mem_reverse.mp hm)
  simp [pyRSplit1, hrev, pySplit1_append xs.reverse hys]

theorem pySplitAll_of_not_mem {c : Char} {l : Str} (h : c ∉ l) :
    pySplitAll c l = [l] := by
  induction l with
  | nil => rfl
  | cons x xs ih =>
    have hx : x ≠ c := fun hxc => h (hxc ▸ List.mem_cons_self x xs)
    have hxs : c ∉ xs := fun hm => h (List.mem_cons_of_mem x hm)
    simp [pySplitAll, hx, ih hxs]

theorem pySplitAll_append {c : Char} {xs : Str} (ys : Str) (h : c ∉ xs) :
    pySplitAll c (xs ++ c :: ys) = xs :: pySplitAll c ys := by
  induction xs with
  | nil => simp [pySplitAll]
  | cons x xt ih =>
    have hx : x ≠ c := fun hxc => h (hxc ▸ List.mem_cons_self x xt)
    have hxt : c ∉ xt := fun hm => h (List.mem_cons_of_mem x hm)
    simp only [List.cons_append, pySplitAll, if_neg hx, List.append_eq, ih hxt]

theorem breakOn_nil (p : Char → Bool) : breakOn p [] = ([], []) := rfl

theorem breakOn_pos {p : Char → Bool} {c : Char} (l : Str) (h : p c = true) :
    breakOn p (c :: l) = ([], c :: l) := by
  simp [breakOn, h]

theorem breakOn_append {p : Char → Bool} {xs : Str} (ys : Str)
    (h : ∀ a ∈ xs, p a = false) :
    breakOn p (xs ++ ys) = (xs ++ (breakOn p ys).1, (breakOn p ys).2) := by
  induction xs with
  | nil => simp
  | cons x xt ih =>
    have hx : p x = false := h x (List.mem_cons_self x xt)
    have hxt : ∀ a ∈ xt, p a = false := fun a ha =>
      h a (List.mem_cons_of_mem x ha)
    simp [breakOn, hx, ih hxt]

theorem breakOn_all_neg {p : Char → Bool} {l : Str}
    (h : ∀ a ∈ l, p a = false) : breakOn p l = (l, []) := by
  have := @breakOn_append p l [] h
  simpa [breakOn] using this

theorem pyStrip_no_space {l : Str} (h : ∀ a ∈ l, isPySpace a = false) :
    pyStrip l = l := by
  have h1 : l.dropWhile isPySpace = l := by
    cases l with
    | nil => rfl
    | cons x xs => simp [List.dropWhile, h x (List.mem_cons_self x xs)]
  have h2 : l.reverse.dropWhile isPySpace = l.reverse := by
    cases hr : l.reverse with
    | nil => rfl
    | cons x xs =>
      have hx : x ∈ l := List.mem_reverse.mp (hr ▸ List.mem_cons_self x xs)
      simp [List.dropWhile, h x hx]
  simp [pyStrip, h1, h2]

theorem isPySpace_eq_false_of_isDigit {c : Char} (h : c.isDigit = true) :
    isPySpace c = false := by
  simp only [isPySpace, Bool.or_eq_false_iff, decide_eq_false_iff_not]
  refine ⟨⟨⟨⟨⟨?_, ?_⟩, ?_⟩, ?_⟩, ?_⟩, ?_⟩ <;>
    (rintro rfl; exact absurd h (by decide))

theorem pyParseInt_digits {l : Str} (hne : l ≠ []) (hd : l.all Char.isDigit) :
    pyParseInt l = some ((digitsVal l : Int)) := by
  have hnospace : ∀ a ∈ l, isPySpace a = false := fun a ha =>
    isPySpace_eq_false_of_isDigit (by exact (List.all_eq_true.mp hd a ha))
  have hstrip : pyStrip l = l := pyStrip_no_space hnospace
  cases l with
  | nil => exact absurd rfl hne
  | cons x xs =>
    have hx : x.isDigit = true := (List.all_eq_true.mp hd x (by simp))
    have hxm : x ≠ '-' := by rintro rfl; exact absurd hx (by decide)
    have hxp : x ≠ '+' := by rintro rfl; exact absurd hx (by decide)
    simp [pyParseInt, hstrip, hxm, hxp, digitsToNat, hd]

theorem parseHostPort_no_colon {h : Str} (hc : ':' ∉ h) :
    parseHostPort h = .ok (h, 6379) := by
  simp [parseHostPort, pyRSplit1_of_not_mem hc]

theorem parseHostPort_ok_range {h : Str} {hp : Str × Int}
    (he : parseHostPort h = .ok hp) : 1 ≤ hp.2 ∧ hp.2 ≤ 65535 := by
  unfold parseHostPort at he
  split at he
  · split at he
    · exact absurd he (by simp)
    · split at he
      · exact absurd he (by simp)
      · rename_i port hrange
        cases he
        push_neg at hrange
        exact ⟨hrange.1, hrange.2⟩
  · cases he
    exact ⟨by norm_num, by norm_num⟩

/-! ## Lemmas about `joinSep` -/

theorem mem_joinSep {c : Char} {x : Char} {fs : List Str}
    (hx : x ∈ joinSep c fs) : x = c ∨ ∃ f ∈ fs, x ∈ f := by
  induction fs with
  | nil => simp [joinSep] at hx
  | cons f rest ih =>
    cases rest with
    | nil =>
      simp only [joinSep] at hx
      exact Or.inr ⟨f, by simp, hx⟩
    | cons g r =>
      simp only [joinSep, List.mem_append, List.mem_cons] at hx
      rcases hx with hf | hcons
      · exact Or.inr ⟨f, by simp, hf⟩
      · rcases hcons with rfl | hrest
        · exact Or.inl rfl
        · rcases ih hrest with h | ⟨f', hf', hxf'⟩
          · exact Or.inl h
          · exact Or.inr ⟨f', List.mem_cons_of_mem f hf', hxf'⟩

theorem not_mem_joinSep {c x : Char} {fs : List Str} (hne : x ≠ c)
    (h : ∀ f ∈ fs, x ∉ f) : x ∉ joinSep c fs := by
  intro hx
  rcases mem_joinSep hx with rfl | ⟨f, hf, hxf⟩
  · exact hne rfl
  · exact h f hf hxf

theorem pySplitAll_joinSep {c : Char} {fs : List Str} (hne : fs ≠ [])
    (h : ∀ f ∈ fs, c ∉ f) : pySplitAll c (joinSep c fs) = fs := by
  induction fs with
  | nil => exact absurd rfl hne
  | cons f rest ih =>
    cases rest with
    | nil =>
      exact (by simp [joinSep,
        pySplitAll_of_not_mem (h f (List.mem_cons_self f []))])
    | cons g r =>
      have hf : c ∉ f := h f (List.mem_cons_self f (g :: r))
      have hrest : ∀ f' ∈ g :: r, c ∉ f' := fun f' hf' =>
        h f' (List.mem_cons_of_mem f hf')
      simp only [joinSep, pySplitAll_append _ hf]
      rw [ih (by simp) hrest]

/-- The scheme tokens of interest contain no colon. -/
theorem isSchemeChar_ne_colon {a : Char} (h : isSchemeChar a = true) :
    a ≠ ':' := by
  rintro rfl
  exact absurd h (by decide)

/-- How the `urlparse` model splits `scheme://body`. -/
theorem pyUrlparse_render {sch : Str} (body : Str) (h1 : sch ≠ [])
    (h2 : headIsAlpha sch = true) (h3 : sch.all isSchemeChar) :
    pyUrlparse (sch ++ ':' :: '/' :: '/' :: body) =
      { scheme := pyToLower sch
        netloc := (breakOn isNetlocDelim body).1
        path := stripFragQuery (breakOn isNetlocDelim body).2 } := by
  have hcolon : ':' ∉ sch := fun hm =>
    isSchemeChar_ne_colon (List.all_eq_true.mp h3 _ hm) rfl
  have hsplit := pySplit1_append (c := ':') ('/' :: '/' :: body) hcolon
  simp [pyUrlparse, hsplit, h1, h2, h3]

/-! ## Inversion lemmas for the parser -/

theorem mkConfig_ok {c d : RedisConnectionConfig} (h : mkConfig c = .ok d) :
    d = c ∧ postInitError c = none := by
  unfold mkConfig at h
  split at h
  · exact absurd h (by simp)
  · rename_i hnone
    cases h
    exact ⟨rfl, hnone⟩

theorem parseStandaloneUri_inv {p : PyParseResult}
    {cfg : RedisConnectionConfig} (h : parseStandaloneUri p = .ok cfg) :
    cfg.mode = .STANDALONE ∧
    cfg.ssl = decide (p.scheme = "rediss".data) ∧
    cfg.ssl_cert_reqs = none ∧
    cfg.host = (pyHostname p).getD "localhost".data ∧
    cfg.password = uriPassword p ∧
    cfg.sentinel_hosts = none ∧
    cfg.cluster_nodes = none ∧
    cfg.service_name = none := by
  unfold parseStandaloneUri at h
  split at h
  · exact absurd h (by simp)
  · split at h
    · exact absurd h (by simp)
    · obtain ⟨rfl, -⟩ := mkConfig_ok h
      exact ⟨rfl, rfl, rfl, rfl, rfl, rfl, rfl, rfl⟩

theorem parseSentinelUri_inv {p : PyParseResult}
    {cfg : RedisConnectionConfig} (h : parseSentinelUri p = .ok cfg) :
    ∃ first rest, parseHostList p.netloc = first :: rest ∧
      parseHostPort first = .ok (cfg.host, cfg.port) ∧
      cfg.mode = .SENTINEL ∧
      cfg.sentinel_hosts = some (first :: rest) ∧
      cfg.sentinel_password = uriPassword p ∧
      cfg.password = uriPassword p ∧
      cfg.service_name = some (p.path.drop 1) := by
  unfold parseSentinelUri at h
  split at h
  · exact absurd h (by simp)
  · rename_i first rest heq
    split at h
    · exact absurd h (by simp)
    · split at h
      · exact absurd h (by simp)
      · rename_i host port hp
        obtain ⟨rfl, -⟩ := mkConfig_ok h
        exact ⟨first, rest, heq, hp, rfl, rfl, rfl, rfl, rfl⟩

theorem parseClusterUri_inv {p : PyParseResult}
    {cfg : RedisConnectionConfig} (h : parseClusterUri p = .ok cfg) :
    ∃ first rest, parseHostList p.netloc = first :: rest ∧
      parseHostPort first = .ok (cfg.host, cfg.port) ∧
      cfg.mode = .CLUSTER ∧
      cfg.cluster_nodes = some (first :: rest) ∧
      cfg.password = uriPassword p := by
  unfold parseClusterUri at h
  split at h
  · exact absurd h (by simp)
  · rename_i first rest heq
    split at h
    · exact absurd h (by simp)
    · rename_i host port hp
      obtain ⟨rfl, -⟩ := mkConfig_ok h
      exact ⟨first, rest, heq, hp, rfl, rfl, rfl⟩

theorem parseRedisUri_ok_sentinel {uri : Str} {cfg : RedisConnectionConfig}
    (h : parseRedisUri uri = .ok cfg) (hm : cfg.mode = .SENTINEL) :
    parseSentinelUri (pyUrlparse uri) = .ok cfg := by
  unfold parseRedisUri at h
  split at h
  · exact absurd h (by simp)
  · split at h
    · exact absurd h (by simp)
    · split at h
      · exact absurd h (by simp)
      · split at h
        · exact absurd h (by simp)
        · have hmode := (parseStandaloneUri_inv h).1
          rw [hmode] at hm
          exact absurd hm (by simp)
      · exact h
      · obtain ⟨-, -, -, -, hmode, -, -⟩ := parseClusterUri_inv h
        rw [hmode] at hm
        exact absurd hm (by simp)

theorem determineConnectionMode_rediss :
    determineConnectionMode "rediss".data = .ok .STANDALONE := by rfl

theorem parseRedisUri_ok_rediss {uri : Str} {cfg : RedisConnectionConfig}
    (h : parseRedisUri uri = .ok cfg)
    (hs : (pyUrlparse uri).scheme = "rediss".data) :
    parseStandaloneUri (pyUrlparse uri) = .ok cfg := by
  unfold parseRedisUri at h
  split at h
  · exact absurd h (by simp)
  · split at h
    · exact absurd h (by simp)
    · split at h
      · rename_i heq
        rw [hs, determineConnectionMode_rediss] at heq
        exact absurd heq (by simp)
      · split at h
        · exact absurd h (by simp)
        · exact h
      · rename_i heq
        rw [hs, determineConnectionMode_rediss] at heq
        exact absurd heq (by simp)
      · rename_i heq
        rw [hs, determineConnectionMode_rediss] at heq
        exact absurd heq (by simp)

/-! ## Helper lemmas for the claims -/

theorem postInitError_none_iff (c : RedisConnectionConfig) :
    postInitError c = none ↔
      (1 ≤ c.port ∧ c.port ≤ 65535 ∧ 0 ≤ c.db ∧ 1 ≤ c.max_connections ∧
       0 ≤ c.socket_timeout ∧ 0 ≤ c.socket_connect_timeout) := by
  unfold postInitError
  split_ifs with h1 h2 h3 h4 h5
  · exact iff_of_false (by simp)
      (fun hp => by obtain ⟨a, b, -⟩ := hp; rcases h1 with h | h <;> omega)
  · exact iff_of_false (by simp)
      (fun hp => by obtain ⟨-, -, hdb, -⟩ := hp; omega)
  · exact iff_of_false (by simp)
      (fun hp => by obtain ⟨-, -, -, hm, -⟩ := hp; omega)
  · exact iff_of_false (by simp)
      (fun hp => absurd hp.2.2.2.2.1 (not_le.mpr h4))
  · exact iff_of_false (by simp)
      (fun hp => absurd hp.2.2.2.2.2 (not_le.mpr h5))
  · push_neg at h1
    exact iff_of_true rfl
      ⟨by omega, by omega, by omega, by omega, not_lt.mp h4, not_lt.mp h5⟩

theorem stripFragQuery_id {s : Str} (h1 : '#' ∉ s) (h2 : '?' ∉ s) :
    stripFragQuery s = s := by
  simp [stripFragQuery, pySplit1_of_not_mem h1, pySplit1_of_not_mem h2]

theorem isHostChar_ne {c : Char} (h : isHostChar c = true) :
    c ≠ ':' ∧ c ≠ '@' ∧ c ≠ ',' ∧ isNetlocDelim c = false ∧
    isPySpace c = false := by
  have hne : ∀ d : Char, isHostChar d = false → c ≠ d := by
    intro d hd hcd
    rw [hcd, hd] at h
    exact Bool.noConfusion h
  refine ⟨hne ':' (by decide), hne '@' (by decide), hne ',' (by decide),
    ?_, ?_⟩
  · cases hb : isNetlocDelim c with
    | false => rfl
    | true =>
      exfalso
      simp only [isNetlocDelim, Bool.or_eq_true, decide_eq_true_eq] at hb
      rcases hb with (h1 | h1) | h1 <;>
        (subst h1; exact absurd h (by decide))
  · cases hb : isPySpace c with
    | false => rfl
    | true =>
      exfalso
      simp only [isPySpace, Bool.or_eq_true, decide_eq_true_eq] at hb
      rcases hb with ((((h1 | h1) | h1) | h1) | h1) | h1 <;>
        (subst h1; exact absurd h (by decide))

theorem isHostChar_of_isDigit {c : Char} (h : c.isDigit = true) :
    isHostChar c = true := by
  simp [isHostChar, h]

theorem isHostChar_ne_path {c : Char} (h : isHostChar c = true) :
    c ≠ '/' ∧ c ≠ '?' ∧ c ≠ '#' := by
  have hne : ∀ d : Char, isHostChar d = false → c ≠ d := by
    intro d hd hcd
    rw [hcd, hd] at h
    exact Bool.noConfusion h
  exact ⟨hne '/' (by decide), hne '?' (by decide), hne '#' (by decide)⟩

theorem at_not_mem_hostport {host : Str} {port : Option Str}
    (hhost : host.all isHostChar)
    (hport : ∀ ps, port = some ps → ps.all Char.isDigit) :
    '@' ∉ host ++ renderPortStr port := by
  intro hm
  rcases List.mem_append.mp hm with hm | hm
  · exact (isHostChar_ne (List.all_eq_true.mp hhost _ hm)).2.1 rfl
  · cases hp : port with
    | none => rw [hp] at hm; exact absurd hm (by simp [renderPortStr])
    | some ps =>
      rw [hp] at hm
      simp only [renderPortStr, List.mem_cons] at hm
      rcases hm with hm | hm
      · exact absurd hm (by decide)
      · exact (isHostChar_ne (isHostChar_of_isDigit
          (List.all_eq_true.mp (hport ps hp) _ hm))).2.1 rfl

theorem hostinfo_standalone (s pp : Str) (auth : Option (Str × Str))
    (host : Str) (port : Option Str) (hhost : host.all isHostChar)
    (hport : ∀ ps, port = some ps → ps.all Char.isDigit) :
    pyHostinfo ⟨s, netlocStandalone auth host port, pp⟩ =
      host ++ renderPortStr port ∧
    pyUserinfo ⟨s, netlocStandalone auth host port, pp⟩ =
      (match auth with
       | none => none
       | some (u, pw) => some (u ++ ':' :: pw)) := by
  have hat := at_not_mem_hostport hhost hport
  cases auth with
  | none =>
    have hn : netlocStandalone none host port = host ++ renderPortStr port := by
      simp [netlocStandalone, renderAuth]
    have hrs : pyRSplit1 '@' (netlocStandalone none host port) = none := by
      rw [hn]; exact pyRSplit1_of_not_mem hat
    simp [pyHostinfo, pyUserinfo, hrs, hn, pyRSplit1_of_not_mem hat]
  | some upw =>
    obtain ⟨u, pw⟩ := upw
    have hn : netlocStandalone (some (u, pw)) host port =
        (u ++ ':' :: pw) ++ '@' :: (host ++ renderPortStr port) := by
      simp [netlocStandalone, renderAuth]
    have hrs : pyRSplit1 '@' (netlocStandalone (some (u, pw)) host port) =
        some (u ++ ':' :: pw, host ++ renderPortStr port) := by
      rw [hn]; exact pyRSplit1_append _ hat
    simp [pyHostinfo, pyUserinfo, hrs]

theorem accessors_standalone (s pp : Str) (auth : Option (Str × Str))
    (host : Str) (port : Option Str) (hhost : host.all isHostChar)
    (hauth : ∀ u pw, auth = some (u, pw) → u.all isHostChar)
    (hport : ∀ ps, port = some ps → ps ≠ [] ∧ ps.all Char.isDigit) :
    pyHostname ⟨s, netlocStandalone auth host port, pp⟩ =
      (if host = [] then none else some (pyToLower host)) ∧
    pyPortStr ⟨s, netlocStandalone auth host port, pp⟩ = port ∧
    pyPassword ⟨s, netlocStandalone auth host port, pp⟩ =
      auth.map Prod.snd := by
  obtain ⟨hinfo, huser⟩ := hostinfo_standalone s pp auth host port hhost
    (fun ps hps => (hport ps hps).2)
  have hcolon : ':' ∉ host := fun hm =>
    (isHostChar_ne (List.all_eq_true.mp hhost _ hm)).1 rfl
  refine ⟨?_, ?_, ?_⟩
  · cases port with
    | none =>
      rw [pyHostname, hinfo]
      simp only [renderPortStr, List.append_nil]
      rw [pySplit1_of_not_mem hcolon]
    | some ps =>
      rw [pyHostname, hinfo]
      simp only [renderPortStr]
      rw [pySplit1_append ps hcolon]
  · cases hp : port with
    | none =>
      rw [hp] at hinfo
      unfold pyPortStr
      rw [hinfo]
      simp only [renderPortStr, List.append_nil]
      rw [pySplit1_of_not_mem hcolon]
    | some ps =>
      rw [hp] at hinfo
      unfold pyPortStr
      rw [hinfo]
      simp only [renderPortStr]
      rw [pySplit1_append ps hcolon]
      simp [(hport ps hp).1]
  · rw [pyPassword, huser]
    cases auth with
    | none => simp
    | some upw =>
      obtain ⟨u, pw⟩ := upw
      have hcu : ':' ∉ u := fun hm =>
        (isHostChar_ne (List.all_eq_true.mp (hauth u pw rfl) _ hm)).1 rfl
      simp [pySplit1_append pw hcu]

theorem pyStrip_nil : pyStrip ([] : Str) = [] := rfl

theorem parseHostList_joinSep {fs : List Str}
    (h : ∀ f ∈ fs, '@' ∉ f ∧ ',' ∉ f) :
    parseHostList (joinSep ',' fs) = (fs.map pyStrip).filter (· ≠ []) := by
  cases fs with
  | nil => simp [joinSep, parseHostList]
  | cons f rest =>
    by_cases hn : joinSep ',' (f :: rest) = []
    · cases rest with
      | nil =>
        have hf : f = [] := by simpa [joinSep] using hn
        subst hf
        simp [joinSep, parseHostList, pyStrip_nil]
      | cons g r =>
        exact absurd hn (by simp [joinSep])
    · have hat : '@' ∉ joinSep ',' (f :: rest) :=
        not_mem_joinSep (by decide) (fun f' hf' => (h f' hf').1)
      have hsplit := @pySplitAll_joinSep ',' (f :: rest)
        (by simp) (fun f' hf' => (h f' hf').2)
      rw [parseHostList, if_neg hn, pySplit1_of_not_mem hat]
      rw [hsplit]

theorem netlocStandalone_no_delim {auth : Option (Str × Str)} {host : Str}
    {port : Option Str} (hhost : host.all isHostChar)
    (hauth : ∀ u pw, auth = some (u, pw) →
      u.all isHostChar ∧ pw.all isHostChar)
    (hport : ∀ ps, port = some ps → ps.all Char.isDigit) :
    ∀ a ∈ netlocStandalone auth host port, isNetlocDelim a = false := by
  have hHC : ∀ a : Char, isHostChar a = true → isNetlocDelim a = false :=
    fun a h => (isHostChar_ne h).2.2.2.1
  intro a ha
  simp only [netlocStandalone, List.mem_append] at ha
  rcases ha with ha | ha | ha
  · cases hau : auth with
    | none => rw [hau] at ha; exact absurd ha (by simp [renderAuth])
    | some upw =>
      obtain ⟨u, pw⟩ := upw
      rw [hau] at ha
      simp only [renderAuth, List.mem_append, List.mem_cons,
        List.mem_singleton] at ha
      rcases ha with ha | rfl | ha | rfl | ha
      · exact hHC a (List.all_eq_true.mp (hauth u pw hau).1 _ ha)
      · decide
      · exact hHC a (List.all_eq_true.mp (hauth u pw hau).2 _ ha)
      · decide
      · exact absurd ha (List.not_mem_nil a)
  · exact hHC a (List.all_eq_true.mp hhost _ ha)
  · cases hp : port with
    | none => rw [hp] at ha; exact absurd ha (by simp [renderPortStr])
    | some ps =>
      rw [hp] at ha
      simp only [renderPortStr, List.mem_cons] at ha
      rcases ha with rfl | ha
      · decide
      · exact hHC a (isHostChar_of_isDigit
          (List.all_eq_true.mp (hport ps hp) _ ha))

theorem pyUrlparse_renderStandalone {auth : Option (Str × Str)} {host : Str}
    {port db : Option Str} (hhost : host.all isHostChar)
    (hauth : ∀ u pw, auth = some (u, pw) →
      u.all isHostChar ∧ pw.all isHostChar)
    (hport : ∀ ps, port = some ps → ps.all Char.isDigit)
    (hdb : ∀ ds, db = some ds → ds.all Char.isDigit) :
    pyUrlparse (renderStandalone auth host port db) =
      { scheme := "redis".data
        netloc := netlocStandalone auth host port
        path := renderDbPath db } := by
  have hmain := @pyUrlparse_render "redis".data
    (netlocStandalone auth host port ++ renderDbPath db)
    (by decide) (by decide) (by decide)
  have hnd := netlocStandalone_no_delim hhost hauth hport
  unfold renderStandalone
  rw [hmain]
  have hbreak : breakOn isNetlocDelim
      (netlocStandalone auth host port ++ renderDbPath db) =
      (netlocStandalone auth host port, renderDbPath db) := by
    cases hd : db with
    | none =>
      simp only [renderDbPath]
      rw [List.append_nil]
      exact breakOn_all_neg hnd
    | some ds =>
      simp only [renderDbPath]
      rw [breakOn_append _ hnd, breakOn_pos _ (by decide)]
      simp
  rw [hbreak]
  have hfq : stripFragQuery (renderDbPath db) = renderDbPath db := by
    cases hd : db with
    | none => rfl
    | some ds =>
      have hds := hdb ds hd
      simp only [renderDbPath]
      refine stripFragQuery_id ?_ ?_ <;>
        (intro hm
         rcases List.mem_cons.mp hm with h | h
         · exact absurd h (by decide)
         · have := isHostChar_ne_path (isHostChar_of_isDigit
             (List.all_eq_true.mp hds _ h))
           first
             | exact this.2.2 rfl
             | exact this.2.1 rfl)
  rw [hfq]
  have hlow : pyToLower "redis".data = "redis".data := rfl
  rw [hlow]

theorem parseRedisUri_scheme_redis {uri : Str} (hne : uri ≠ [])
    (hs : (pyUrlparse uri).scheme = "redis".data) :
    parseRedisUri uri =
      if (pyUrlparse uri).netloc = [] then
        .error "Invalid Redis URI format".data
      else parseStandaloneUri (pyUrlparse uri) := by
  unfold parseRedisUri
  rw [if_neg hne, hs, if_neg (by decide : ¬("redis".data = [])),
    show determineConnectionMode "redis".data = .ok .STANDALONE from rfl]

theorem parseRedisUri_scheme_sentinel {uri : Str} (hne : uri ≠ [])
    (hs : (pyUrlparse uri).scheme = "redis+sentinel".data) :
    parseRedisUri uri = parseSentinelUri (pyUrlparse uri) := by
  unfold parseRedisUri
  rw [if_neg hne, hs, if_neg (by decide : ¬("redis+sentinel".data = [])),
    show determineConnectionMode "redis+sentinel".data = .ok .SENTINEL from
      rfl]

theorem parseRedisUri_scheme_cluster {uri : Str} (hne : uri ≠ [])
    (hs : (pyUrlparse uri).scheme = "redis+cluster".data) :
    parseRedisUri uri = parseClusterUri (pyUrlparse uri) := by
  unfold parseRedisUri
  rw [if_neg hne, hs, if_neg (by decide : ¬("redis+cluster".data = [])),
    show determineConnectionMode "redis+cluster".data = .ok .CLUSTER from
      rfl]

theorem netlocStandalone_ne_nil {auth : Option (Str × Str)} {host : Str}
    {port : Option Str} (h : host = [] → auth ≠ none ∨ port ≠ none) :
    netlocStandalone auth host port ≠ [] := by
  intro hnil
  simp only [netlocStandalone, List.append_eq_nil] at hnil
  obtain ⟨ha, hh, hp⟩ := hnil
  rcases h hh with hc | hc
  · cases hau : auth with
    | none => exact hc hau
    | some upw =>
      obtain ⟨u, pw⟩ := upw
      rw [hau] at ha
      simp [renderAuth] at ha
  · cases hpo : port with
    | none => exact hc hpo
    | some ps =>
      rw [hpo] at hp
      exact absurd hp (by simp [renderPortStr])

theorem parseStandaloneUri_render {auth : Option (Str × Str)} {host : Str}
    {port db : Option Str} (hhost : host.all isHostChar)
    (hauth : ∀ u pw, auth = some (u, pw) →
      u.all isHostChar ∧ pw ≠ [] ∧ pw.all isHostChar)
    (hport : ∀ ps, port = some ps → ps ≠ [] ∧ ps.all Char.isDigit ∧
      1 ≤ digitsVal ps ∧ digitsVal ps ≤ 65535)
    (hdb : ∀ ds, db = some ds → ds ≠ [] ∧ ds.all Char.isDigit) :
    parseStandaloneUri
      { scheme := "redis".data
        netloc := netlocStandalone auth host port
        path := renderDbPath db } =
      .ok { host := if host = [] then "localhost".data else pyToLower host
            port := portValOf port
            password := auth.map Prod.snd
            db := dbValOf db
            mode := .STANDALONE
            ssl := false } := by
  obtain ⟨hhn, hps, hpw⟩ := accessors_standalone "redis".data (renderDbPath db)
    auth host port hhost (fun u pw hu => (hauth u pw hu).1)
    (fun ps hp => ⟨(hport ps hp).1, (hport ps hp).2.1⟩)
  have hpp : pyPort { scheme := "redis".data,
                      netloc := netlocStandalone auth host port,
                      path := renderDbPath db } =
      .ok (port.map (fun ps => (digitsVal ps : Int))) := by
    cases hp : port with
    | none =>
      rw [hp] at hps
      unfold pyPort
      rw [hps]
      rfl
    | some ps =>
      rw [hp] at hps
      unfold pyPort
      rw [hps]
      dsimp only
      rw [pyParseInt_digits (hport ps hp).1 (hport ps hp).2.1]
      dsimp only
      have h65 : (digitsVal ps : Int) ≤ 65535 := by
        exact_mod_cast (hport ps hp).2.2.2
      have h0 : (0 : Int) ≤ (digitsVal ps : Int) := Int.ofNat_nonneg _
      rw [if_neg (by push_neg; exact ⟨h0, h65⟩)]
      rfl
  have hdbv : standaloneDb (renderDbPath db) = .ok (dbValOf db) := by
    cases hd : db with
    | none =>
      simp [standaloneDb, renderDbPath, dbValOf]
    | some ds =>
      obtain ⟨hne, hdig⟩ := hdb ds hd
      unfold standaloneDb
      simp only [renderDbPath]
      rw [if_pos ⟨by simp, by
        simp only [List.length_cons]
        have := List.length_pos.mpr hne
        omega⟩]
      have hdrop : ('/' :: ds).drop 1 = ds := rfl
      rw [hdrop, pyParseInt_digits hne hdig]
      dsimp only
      rw [if_neg (not_lt.mpr (Int.ofNat_nonneg _))]
      rfl
  have h1 : (pyHostname { scheme := "redis".data,
                          netloc := netlocStandalone auth host port,
                          path := renderDbPath db }).getD "localhost".data =
      (if host = [] then "localhost".data else pyToLower host) := by
    rw [hhn]
    by_cases hh : host = [] <;> simp [hh]
  have h2 : standalonePort (port.map (fun ps => (digitsVal ps : Int))) =
      portValOf port := by
    cases hp : port with
    | none => rfl
    | some ps =>
      have hv : (1 : Int) ≤ (digitsVal ps : Int) := by
        exact_mod_cast (hport ps hp).2.2.1
      simp only [Option.map, standalonePort, portValOf]
      rw [if_neg (by omega)]
  have h3 : uriPassword { scheme := "redis".data,
                          netloc := netlocStandalone auth host port,
                          path := renderDbPath db } = auth.map Prod.snd := by
    unfold uriPassword
    rw [hpw]
    cases hau : auth with
    | none => rfl
    | some upw =>
      obtain ⟨u, pw⟩ := upw
      simp only [Option.map]
      rw [if_neg (hauth u pw hau).2.1]
  unfold parseStandaloneUri
  rw [hpp, hdbv]
  dsimp only
  rw [h1, h2, h3]
  unfold mkConfig
  have hpe : postInitError
      { host := if host = [] then "localhost".data else pyToLower host,
        port := portValOf port,
        password := auth.map Prod.snd,
        db := dbValOf db,
        mode := .STANDALONE,
        ssl := decide (("redis".data : Str) = "rediss".data) } = none := by
    refine (postInitError_none_iff _).mpr ?_
    dsimp only
    refine ⟨?_, ?_, ?_, ?_, ?_, ?_⟩
    · cases hp : port with
      | none => decide
      | some ps =>
        simp only [portValOf]
        exact_mod_cast (hport ps hp).2.2.1
    · cases hp : port with
      | none => decide
      | some ps =>
        simp only [portValOf]
        exact_mod_cast (hport ps hp).2.2.2
    · cases db with
      | none => decide
      | some ds =>
        simp only [dbValOf]
        exact Int.ofNat_nonneg _
    · decide
    · norm_num
    · norm_num
  rw [hpe]
  rfl

theorem pyUrlparse_renderSentinel {frags : List Str} {svc : Str}
    (hf : ∀ f ∈ frags, ∀ a ∈ f, isNetlocDelim a = false)
    (hs : ∀ a ∈ svc, a ≠ '#' ∧ a ≠ '?') :
    pyUrlparse (renderSentinel frags svc) =
      { scheme := "redis+sentinel".data
        netloc := joinSep ',' frags
        path := '/' :: svc } := by
  have hmain := @pyUrlparse_render "redis+sentinel".data
    (joinSep ',' frags ++ '/' :: svc) (by decide) (by decide) (by decide)
  unfold renderSentinel
  rw [hmain]
  have hnd : ∀ a ∈ joinSep ',' frags, isNetlocDelim a = false := by
    intro a ha
    rcases mem_joinSep ha with rfl | ⟨f, hfm, ham⟩
    · decide
    · exact hf f hfm a ham
  rw [breakOn_append _ hnd, breakOn_pos _ (by decide)]
  dsimp only
  have hfq : stripFragQuery ('/' :: svc) = '/' :: svc := by
    refine stripFragQuery_id ?_ ?_
    · intro hm
      rcases List.mem_cons.mp hm with h | h
      · exact absurd h (by decide)
      · exact (hs _ h).1 rfl
    · intro hm
      rcases List.mem_cons.mp hm with h | h
      · exact absurd h (by decide)
      · exact (hs _ h).2 rfl
  rw [hfq, show pyToLower "redis+sentinel".data = "redis+sentinel".data
    from rfl]
  simp

theorem pyUrlparse_renderCluster {frags : List Str}
    (hf : ∀ f ∈ frags, ∀ a ∈ f, isNetlocDelim a = false) :
    pyUrlparse (renderCluster frags) =
      { scheme := "redis+cluster".data
        netloc := joinSep ',' frags
        path := [] } := by
  have hmain := @pyUrlparse_render "redis+cluster".data
    (joinSep ',' frags) (by decide) (by decide) (by decide)
  unfold renderCluster
  rw [hmain]
  have hnd : ∀ a ∈ joinSep ',' frags, isNetlocDelim a = false := by
    intro a ha
    rcases mem_joinSep ha with rfl | ⟨f, hfm, ham⟩
    · decide
    · exact hf f hfm a ham
  rw [breakOn_all_neg hnd]
  rw [show pyToLower "redis+cluster".data = "redis+cluster".data from rfl]
  rfl

theorem isFragChar_facts {c : Char} (h : isFragChar c = true) :
    c ≠ '@' ∧ c ≠ ',' ∧ isNetlocDelim c = false ∧ isPySpace c = false := by
  simp only [isFragChar, Bool.or_eq_true, decide_eq_true_eq] at h
  rcases h with h | rfl
  · have := isHostChar_ne h
    exact ⟨this.2.1, this.2.2.1, this.2.2.2.1, this.2.2.2.2⟩
  · exact ⟨by decide, by decide, by decide, by decide⟩

theorem sentinel_uriPassword_none {frags : List Str} {svc : Str}
    (hat : '@' ∉ joinSep ',' frags) :
    uriPassword { scheme := "redis+sentinel".data
                  netloc := joinSep ',' frags
                  path := '/' :: svc } = none := by
  unfold uriPassword pyPassword pyUserinfo
  rw [show ({ scheme := "redis+sentinel".data, netloc := joinSep ',' frags,
              path := '/' :: svc } : PyParseResult).netloc = joinSep ',' frags
    from rfl]
  rw [pyRSplit1_of_not_mem hat]
  rfl

theorem parseSentinelUri_render {f0 : Str} {rest : List Str} {svc : Str}
    {hp : Str × Int}
    (hfr : ∀ f ∈ f0 :: rest, f ≠ [] ∧ f.all isFragChar)
    (hsvc : svc ≠ []) (hport : parseHostPort f0 = .ok hp) :
    parseSentinelUri { scheme := "redis+sentinel".data
                       netloc := joinSep ',' (f0 :: rest)
                       path := '/' :: svc } =
      .ok { host := hp.1
            port := hp.2
            password := none
            mode := .SENTINEL
            sentinel_hosts := some (f0 :: rest)
            sentinel_password := none
            service_name := some svc } := by
  obtain ⟨h0, p0⟩ := hp
  have hfacts : ∀ f ∈ f0 :: rest, ∀ a ∈ f,
      a ≠ '@' ∧ a ≠ ',' ∧ isNetlocDelim a = false ∧ isPySpace a = false :=
    fun f hf a ha =>
      isFragChar_facts (List.all_eq_true.mp (hfr f hf).2 a ha)
  have hhl : parseHostList (joinSep ',' (f0 :: rest)) = f0 :: rest := by
    rw [parseHostList_joinSep
      (fun f hf => ⟨fun hm => (hfacts f hf _ hm).1 rfl,
                    fun hm => (hfacts f hf _ hm).2.1 rfl⟩)]
    have hmap : (f0 :: rest).map pyStrip = f0 :: rest := by
      apply List.map_congr_left ?_ |>.trans (List.map_id _)
      intro f hf
      exact pyStrip_no_space (fun a ha => (hfacts f hf a ha).2.2.2)
    rw [hmap]
    apply List.filter_eq_self.mpr
    intro f hf
    simp only [decide_eq_true_eq]
    exact (hfr f hf).1
  have hat : '@' ∉ joinSep ',' (f0 :: rest) :=
    not_mem_joinSep (by decide)
      (fun f hf hm => (hfacts f hf _ hm).1 rfl)
  unfold parseSentinelUri
  rw [show ({ scheme := "redis+sentinel".data,
              netloc := joinSep ',' (f0 :: rest), path := '/' :: svc } :
      PyParseResult).netloc = joinSep ',' (f0 :: rest) from rfl]
  rw [hhl]
  dsimp only
  rw [if_neg (by
    push_neg
    refine ⟨by simp, ?_⟩
    simp only [List.length_cons]
    have := List.length_pos.mpr hsvc
    omega)]
  rw [hport, sentinel_uriPassword_none hat]
  obtain ⟨hp1, hp2⟩ := parseHostPort_ok_range hport
  dsimp only
  simp only [List.drop_succ_cons, List.drop_zero]
  unfold mkConfig
  rw [show postInitError
      { host := h0, port := p0, password := none,
        mode := .SENTINEL, sentinel_hosts := some (f0 :: rest),
        sentinel_password := none, service_name := some svc } = none from
    (postInitError_none_iff _).mpr
      ⟨hp1, hp2, by norm_num, by norm_num, by norm_num, by norm_num⟩]

/-! ## Claims -/

/-- C1 (counterexample): `merge_configs` does NOT preserve a differing
base field when the override leaves that field at its (non-`None`)
default: merging a base with `port = 6380` and an override whose `port`
was left at the default `6379` yields `6379`, overwriting the base. -/
theorem C1_counterexample :
    (mergeConfigs { host := "h".data, port := 6380 }
        { host := "h".data }).map RedisConnectionConfig.port =
      .ok 6379 ∧ (6380 : Int) ≠ 6379 :=
  ⟨rfl, by decide⟩

/-- C1 (amended): `merge_configs` keeps exactly the non-`None`
attributes of the override.  Every `Optional` field of the override that
is `None` falls back to the base; every other field — including the
non-`Optional` fields `host`, `port`, `db`, `mode`, `max_connections`,
the timeouts and `ssl`, even when left at their defaults — always comes
from the override.  `dataclasses.replace` re-runs `__post_init__`, which
succeeds because all re-checked fields come from the (already valid)
override. -/
theorem C1_merge_right_biased (base override : RedisConnectionConfig)
    (h : postInitError override = none) :
    mergeConfigs base override = .ok
      { host := override.host
        port := override.port
        password := override.password.orElse fun _ => base.password
        db := override.db
        mode := override.mode
        sentinel_hosts :=
          override.sentinel_hosts.orElse fun _ => base.sentinel_hosts
        sentinel_password :=
          override.sentinel_password.orElse fun _ => base.sentinel_password
        service_name :=
          override.service_name.orElse fun _ => base.service_name
        cluster_nodes :=
          override.cluster_nodes.orElse fun _ => base.cluster_nodes
        max_connections := override.max_connections
        socket_timeout := override.socket_timeout
        socket_connect_timeout := override.socket_connect_timeout
        ssl := override.ssl
        ssl_cert_reqs :=
          override.ssl_cert_reqs.orElse fun _ => base.ssl_cert_reqs
        ssl_ca_certs :=
          override.ssl_ca_certs.orElse fun _ => base.ssl_ca_certs } := by
  have hM : postInitError
      { host := override.host
        port := override.port
        password := override.password.orElse fun _ => base.password
        db := override.db
        mode := override.mode
        sentinel_hosts :=
          override.sentinel_hosts.orElse fun _ => base.sentinel_hosts
        sentinel_password :=
          override.sentinel_password.orElse fun _ => base.sentinel_password
        service_name :=
          override.service_name.orElse fun _ => base.service_name
        cluster_nodes :=
          override.cluster_nodes.orElse fun _ => base.cluster_nodes
        max_connections := override.max_connections
        socket_timeout := override.socket_timeout
        socket_connect_timeout := override.socket_connect_timeout
        ssl := override.ssl
        ssl_cert_reqs :=
          override.ssl_cert_reqs.orElse fun _ => base.ssl_cert_reqs
        ssl_ca_certs :=
          override.ssl_ca_certs.orElse fun _ => base.ssl_ca_certs } =
      none := h
  unfold mergeConfigs mkConfig
  rw [hM]

/-- C1 (witness): concrete merge where the override's `None` password
falls back to base and all other fields come from the override. -/
theorem C1_witness :
    mergeConfigs { host := "a".data, port := 6380,
                   password := some "p".data }
      { host := "b".data } =
      .ok { host := "b".data, port := 6379, password := some "p".data } :=
  C1_merge_right_biased
    { host := "a".data, port := 6380, password := some "p".data }
    { host := "b".data } rfl

/-- C2 (counterexample): for the sentinel URI `redis+sentinel://h1/m`,
whose single host fragment lacks a port, the descriptor's top-level
port is 6379 — not the sentinel default 26379 the claim requires. -/
theorem C2_counterexample :
    (parseRedisUri "redis+sentinel://h1/m".data).map
      RedisConnectionConfig.port = .ok 6379 ∧ (6379 : Int) ≠ 26379 :=
  ⟨rfl, by decide⟩

/-- C2 (amended): a host fragment lacking a port is assigned 26379 when
the SENTINEL client parses `sentinel_hosts` and 6379 when the CLUSTER
client parses `cluster_nodes`; but the descriptor's top-level port
derived from the first list entry uses `_parse_host_port`, whose
default is 6379 regardless of mode — in particular a sentinel
descriptor whose first listed fragment has no colon gets top-level
port 6379. -/
theorem C2_default_ports (h : Str) (hc : ':' ∉ h) :
    parseSentinelHost h = .ok (h, 26379) ∧
    parseClusterNode h = .ok (h, 6379) ∧
    parseHostPort h = .ok (h, 6379) ∧
    (∀ (uri : Str) (cfg : RedisConnectionConfig) (r : List Str),
      parseRedisUri uri = .ok cfg → cfg.mode = .SENTINEL →
      cfg.sentinel_hosts = some (h :: r) → cfg.port = 6379) := by
  refine ⟨?_, ?_, parseHostPort_no_colon hc, ?_⟩
  · simp [parseSentinelHost, pySplit1_of_not_mem hc]
  · simp [parseClusterNode, pySplit1_of_not_mem hc]
  · intro uri cfg r hok hm hsh
    have hsen := parseRedisUri_ok_sentinel hok hm
    obtain ⟨f, rest, -, hpp, -, hshs, -, -, -⟩ := parseSentinelUri_inv hsen
    rw [hsh] at hshs
    have hf : h = f := by
      have := (List.cons.injEq _ _ _ _).mp (Option.some.inj hshs)
      exact this.1
    rw [← hf, parseHostPort_no_colon hc] at hpp
    have := (Prod.mk.injEq _ _ _ _).mp (Except.ok.inj hpp)
    exact this.2.symm

/-- C2 (witness): the three parsers at the portless fragment `h1`, and
the top-level-port fact instantiable at any parsed sentinel URI whose
first fragment is `h1`. -/
theorem C2_witness :
    parseSentinelHost "h1".data = .ok ("h1".data, 26379) ∧
    parseClusterNode "h1".data = .ok ("h1".data, 6379) ∧
    parseHostPort "h1".data = .ok ("h1".data, 6379) ∧
    (∀ (uri : Str) (cfg : RedisConnectionConfig) (r : List Str),
      parseRedisUri uri = .ok cfg → cfg.mode = .SENTINEL →
      cfg.sentinel_hosts = some ("h1".data :: r) → cfg.port = 6379) :=
  C2_default_ports "h1".data (by decide)

/-- C3 (counterexample): parsing `rediss://host` yields `ssl = true`
but leaves `ssl_cert_reqs` unset (`None`), not populated to a default
such as "required" as the claim states. -/
theorem C3_counterexample :
    (parseRedisUri "rediss://host".data).map RedisConnectionConfig.ssl =
      .ok true ∧
    (parseRedisUri "rediss://host".data).map
      RedisConnectionConfig.ssl_cert_reqs = .ok none :=
  ⟨rfl, rfl⟩

/-- C3 (amended): every URI with scheme `rediss` that parses
successfully yields a descriptor with `mode = STANDALONE` and
`ssl = true`, and with `ssl_cert_reqs` left unset (`None`) — the parser
never populates a certificate-requirement default. -/
theorem C3_rediss_ssl (uri : Str) (cfg : RedisConnectionConfig)
    (h : parseRedisUri uri = .ok cfg)
    (hs : (pyUrlparse uri).scheme = "rediss".data) :
    cfg.mode = .STANDALONE ∧ cfg.ssl = true ∧ cfg.ssl_cert_reqs = none := by
  obtain ⟨hm, hssl, hcert, -, -, -, -, -⟩ :=
    parseStandaloneUri_inv (parseRedisUri_ok_rediss h hs)
  refine ⟨hm, ?_, hcert⟩
  rw [hssl, hs]
  simp

/-- C3 (witness): the amended claim at the concrete URI
`rediss://host`. -/
theorem C3_witness :
    ({ host := "host".data, ssl := true } :
        RedisConnectionConfig).mode = .STANDALONE ∧
    ({ host := "host".data, ssl := true } :
        RedisConnectionConfig).ssl = true ∧
    ({ host := "host".data, ssl := true } :
        RedisConnectionConfig).ssl_cert_reqs = none :=
  C3_rediss_ssl "rediss://host".data _ rfl rfl

/-- C6 (counterexample): `validate_config` raises on a SENTINEL
descriptor whose `sentinel_hosts` is SET but empty (`[]`), an input on
which none of the claim's listed conditions (host blank, `service_name`
or `sentinel_hosts` unset, cluster/ssl conditions) holds. -/
theorem C6_counterexample :
    validateConfig { host := "h".data, mode := .SENTINEL,
                     service_name := some "m".data,
                     sentinel_hosts := some [] } =
      some "Sentinel hosts are required for Sentinel mode".data ∧
    ({ host := "h".data, mode := .SENTINEL, service_name := some "m".data,
       sentinel_hosts := some [] } :
        RedisConnectionConfig).sentinel_hosts ≠ none ∧
    ({ host := "h".data, mode := .SENTINEL, service_name := some "m".data,
       sentinel_hosts := some [] } :
        RedisConnectionConfig).service_name ≠ none ∧
    pyStrip "h".data ≠ [] ∧
    ({ host := "h".data, mode := .SENTINEL, service_name := some "m".data,
       sentinel_hosts := some [] } : RedisConnectionConfig).ssl = false :=
  ⟨rfl, by decide, by decide, by decide, rfl⟩

/-- C6 (amended): `validate_config` raises a value error if and only
if: the host is empty or whitespace-only; or the mode is SENTINEL and
`service_name` is unset or the empty string, or `sentinel_hosts` is
unset or the empty list; or the mode is CLUSTER and `cluster_nodes` is
unset or empty; or `ssl` is true and `ssl_cert_reqs` is unset.  (In the
embedding `validate_config` is a pure function of the descriptor, so it
cannot mutate its input and is trivially idempotent.) -/
theorem C6_validate_iff (c : RedisConnectionConfig) :
    (validateConfig c).isSome = true ↔
      (pyStrip c.host = [] ∨
       (c.mode = .SENTINEL ∧
         (c.service_name = none ∨ c.service_name = some [])) ∨
       (c.mode = .SENTINEL ∧
         (c.sentinel_hosts = none ∨ c.sentinel_hosts = some [])) ∨
       (c.mode = .CLUSTER ∧
         (c.cluster_nodes = none ∨ c.cluster_nodes = some [])) ∨
       (c.ssl = true ∧ c.ssl_cert_reqs = none)) := by
  unfold validateConfig
  split_ifs with h1 h2 h3 h4 h5
  · refine iff_of_true (by simp) (Or.inl ?_)
    rcases h1 with h | h
    · rw [h]; rfl
    · exact h
  · exact iff_of_true (by simp) (Or.inr (Or.inl h2))
  · exact iff_of_true (by simp) (Or.inr (Or.inr (Or.inl h3)))
  · exact iff_of_true (by simp) (Or.inr (Or.inr (Or.inr (Or.inl h4))))
  · exact iff_of_true (by simp)
      (Or.inr (Or.inr (Or.inr (Or.inr h5))))
  · refine iff_of_false (by simp) ?_
    rintro (h | h | h | h | h)
    · exact h1 (Or.inr h)
    · exact h2 h
    · exact h3 h
    · exact h4 h
    · exact h5 h

/-- C6 (witness): the amended iff at a concrete valid standalone
descriptor, on which validation succeeds and every condition is
false. -/
theorem C6_witness :
    (validateConfig { host := "h".data } :
        Option Str).isSome = true ↔
      (pyStrip ({ host := "h".data } : RedisConnectionConfig).host = [] ∨
       (({ host := "h".data } : RedisConnectionConfig).mode = .SENTINEL ∧
         (({ host := "h".data } : RedisConnectionConfig).service_name =
            none ∨
          ({ host := "h".data } : RedisConnectionConfig).service_name =
            some [])) ∨
       (({ host := "h".data } : RedisConnectionConfig).mode = .SENTINEL ∧
         (({ host := "h".data } : RedisConnectionConfig).sentinel_hosts =
            none ∨
          ({ host := "h".data } : RedisConnectionConfig).sentinel_hosts =
            some [])) ∨
       (({ host := "h".data } : RedisConnectionConfig).mode = .CLUSTER ∧
         (({ host := "h".data } : RedisConnectionConfig).cluster_nodes =
            none ∨
          ({ host := "h".data } : RedisConnectionConfig).cluster_nodes =
            some [])) ∨
       (({ host := "h".data } : RedisConnectionConfig).ssl = true ∧
        ({ host := "h".data } : RedisConnectionConfig).ssl_cert_reqs =
          none)) :=
  C6_validate_iff { host := "h".data }

/-- C7: constructing a `RedisConnectionConfig` fails with a value error
exactly when `port ∉ [1, 65535]`, `db < 0`, `max_connections < 1`, or a
timeout is negative; consequently every successfully constructed
descriptor satisfies all the stated bounds. -/
theorem C7_construction_invariants (c : RedisConnectionConfig) :
    (¬ (1 ≤ c.port ∧ c.port ≤ 65535 ∧ 0 ≤ c.db ∧ 1 ≤ c.max_connections ∧
        0 ≤ c.socket_timeout ∧ 0 ≤ c.socket_connect_timeout) →
      ∃ e, mkConfig c = .error e) ∧
    (∀ d, mkConfig c = .ok d →
      1 ≤ d.port ∧ d.port ≤ 65535 ∧ 0 ≤ d.db ∧ 1 ≤ d.max_connections ∧
      0 ≤ d.socket_timeout ∧ 0 ≤ d.socket_connect_timeout) := by
  constructor
  · intro hni
    cases hpe : postInitError c with
    | some e =>
      refine ⟨e, ?_⟩
      unfold mkConfig
      rw [hpe]
    | none => exact absurd ((postInitError_none_iff c).mp hpe) hni
  · intro d hd
    obtain ⟨rfl, hpe⟩ := mkConfig_ok hd
    exact (postInitError_none_iff _).mp hpe

/-- C7 (witness): a config with `port = 0` violates the invariants and
construction fails; a config with only defaults constructs and the
invariants hold of the result. -/
theorem C7_witness :
    (∃ e, mkConfig { host := "h".data, port := 0 } = .error e) ∧
    (1 ≤ ({ host := "h".data } : RedisConnectionConfig).port ∧
     ({ host := "h".data } : RedisConnectionConfig).port ≤ 65535 ∧
     0 ≤ ({ host := "h".data } : RedisConnectionConfig).db ∧
     1 ≤ ({ host := "h".data } : RedisConnectionConfig).max_connections ∧
     0 ≤ ({ host := "h".data } : RedisConnectionConfig).socket_timeout ∧
     0 ≤ ({ host := "h".data } :
        RedisConnectionConfig).socket_connect_timeout) :=
  ⟨(C7_construction_invariants { host := "h".data, port := 0 }).1
      (fun hinv => absurd hinv.1 (by decide)),
   (C7_construction_invariants { host := "h".data }).2
      { host := "h".data } rfl⟩

/-- C8: in every successfully parsed sentinel descriptor,
`sentinel_password` equals `password`, and both equal the non-empty
password extracted from the URI's userinfo (`None` when the URI
carries none). -/
theorem C8_sentinel_password (uri : Str) (cfg : RedisConnectionConfig)
    (h : parseRedisUri uri = .ok cfg) (hm : cfg.mode = .SENTINEL) :
    cfg.sentinel_password = cfg.password ∧
    cfg.password = uriPassword (pyUrlparse uri) := by
  obtain ⟨f, rest, -, -, -, -, hsp, hpw, -⟩ :=
    parseSentinelUri_inv (parseRedisUri_ok_sentinel h hm)
  exact ⟨hsp.trans hpw.symm, hpw⟩

/-- C8 (witness): the concrete sentinel URI
`redis+sentinel://:pw@h:26379/m`, whose password `pw` lands in both
fields. -/
theorem C8_witness :
    ({ host := "h".data, port := 26379, password := some "pw".data,
       mode := .SENTINEL, sentinel_hosts := some ["h:26379".data],
       sentinel_password := some "pw".data,
       service_name := some "m".data } :
        RedisConnectionConfig).sentinel_password =
      ({ host := "h".data, port := 26379, password := some "pw".data,
         mode := .SENTINEL, sentinel_hosts := some ["h:26379".data],
         sentinel_password := some "pw".data,
         service_name := some "m".data } :
          RedisConnectionConfig).password ∧
    ({ host := "h".data, port := 26379, password := some "pw".data,
       mode := .SENTINEL, sentinel_hosts := some ["h:26379".data],
       sentinel_password := some "pw".data,
       service_name := some "m".data } :
        RedisConnectionConfig).password =
      uriPassword (pyUrlparse "redis+sentinel://:pw@h:26379/m".data) :=
  C8_sentinel_password "redis+sentinel://:pw@h:26379/m".data _ rfl rfl

/-- C10 (counterexample): on the rediss URI `rediss:// /0` (whitespace
host) `parse_redis_uri` succeeds with `ssl = true`, yet
`create_config_from_uri` raises the empty-host error, not the
SSL-certificate-requirements error the claim says is always raised. -/
theorem C10_counterexample :
    (parseRedisUri "rediss:// /0".data).map RedisConnectionConfig.ssl =
      .ok true ∧
    createConfigFromUri "rediss:// /0".data {} =
      .error "Host cannot be empty".data ∧
    "Host cannot be empty".data ≠
      "SSL certificate requirements must be specified when SSL is enabled".data :=
  ⟨rfl, rfl, by decide⟩

/-- C10 (amended): for every rediss URI accepted by `parse_redis_uri`,
the parsed descriptor has `ssl = true` and `ssl_cert_reqs` unset, and
`create_config_from_uri` with no overrides always raises: the
SSL-certificate-requirements error when the parsed host is not
whitespace-only, and the empty-host error otherwise. -/
theorem C10_rediss_disagreement (uri : Str) (cfg : RedisConnectionConfig)
    (h : parseRedisUri uri = .ok cfg)
    (hs : (pyUrlparse uri).scheme = "rediss".data) :
    cfg.ssl = true ∧ cfg.ssl_cert_reqs = none ∧
    (pyStrip cfg.host ≠ [] →
      createConfigFromUri uri {} =
        .error
          "SSL certificate requirements must be specified when SSL is enabled".data) ∧
    (pyStrip cfg.host = [] →
      createConfigFromUri uri {} = .error "Host cannot be empty".data) := by
  obtain ⟨hm, hssl, hcert, -, -, -, -, -⟩ :=
    parseStandaloneUri_inv (parseRedisUri_ok_rediss h hs)
  have hssl' : cfg.ssl = true := by rw [hssl, hs]; simp
  have hbase : ∀ e : Str, validateConfig cfg = some e →
      createConfigFromUri uri {} = .error e := by
    intro e hv
    unfold createConfigFromUri
    rw [h, show ConfigOverrides.nonEmpty {} = false from rfl]
    simp only [Bool.false_eq_true, if_false]
    rw [hv]
  refine ⟨hssl', hcert, ?_, ?_⟩
  · intro hpsne
    refine hbase _ ?_
    unfold validateConfig
    rw [if_neg ?_, if_neg ?_, if_neg ?_, if_neg ?_, if_pos ⟨hssl', hcert⟩]
    · rintro ⟨hmm, -⟩
      rw [hm] at hmm
      exact absurd hmm (by simp)
    · rintro ⟨hmm, -⟩
      rw [hm] at hmm
      exact absurd hmm (by simp)
    · rintro ⟨hmm, -⟩
      rw [hm] at hmm
      exact absurd hmm (by simp)
    · rintro (hh | hh)
      · exact hpsne (by rw [hh]; rfl)
      · exact hpsne hh
  · intro hps
    refine hbase _ ?_
    unfold validateConfig
    rw [if_pos (Or.inr hps)]

theorem parseHostPort_error_msg {s : Str} {e : Str}
    (h : parseHostPort s = .error e) : e = "Invalid port number".data := by
  unfold parseHostPort at h
  split at h
  · split at h
    · exact (Except.error.inj h).symm
    · split at h
      · exact (Except.error.inj h).symm
      · exact absurd h (by simp)
  · exact absurd h (by simp)

/-- C4 (counterexample): parsing `redis://HOST:1234/5` recovers the
host lower-cased (`host`), not exactly the given `HOST`. -/
theorem C4_counterexample :
    (parseRedisUri "redis://HOST:1234/5".data).map
      RedisConnectionConfig.host = .ok "host".data ∧
    "host".data ≠ "HOST".data :=
  ⟨rfl, by decide⟩

/-- C4 (amended): for every wellformed standalone URI
`redis://[user:password@]host[:port][/db]`, parsing recovers the host
lower-cased (exactly when already lower-case), and exactly the given
port, db and password, with `mode = STANDALONE` and `ssl = false`;
host defaults to `localhost`, port to 6379 and db to 0 when the
component is absent. -/
theorem C4_standalone_roundtrip (auth : Option (Str × Str)) (host : Str)
    (port db : Option Str) (hhost : host.all isHostChar)
    (hnil : host = [] → auth ≠ none ∨ port ≠ none)
    (hauth : ∀ u pw, auth = some (u, pw) →
      u.all isHostChar ∧ pw ≠ [] ∧ pw.all isHostChar)
    (hport : ∀ ps, port = some ps → ps ≠ [] ∧ ps.all Char.isDigit ∧
      1 ≤ digitsVal ps ∧ digitsVal ps ≤ 65535)
    (hdb : ∀ ds, db = some ds → ds ≠ [] ∧ ds.all Char.isDigit) :
    parseRedisUri (renderStandalone auth host port db) =
      .ok { host := if host = [] then "localhost".data else pyToLower host
            port := portValOf port
            password := auth.map Prod.snd
            db := dbValOf db
            mode := .STANDALONE
            ssl := false } := by
  have hup := pyUrlparse_renderStandalone hhost
    (fun u pw hu => ⟨(hauth u pw hu).1, (hauth u pw hu).2.2⟩)
    (fun ps hp => (hport ps hp).2.1) (fun ds hd => (hdb ds hd).2)
  have hnuri : renderStandalone auth host port db ≠ [] := by
    unfold renderStandalone
    intro hcontr
    exact absurd (List.append_eq_nil.mp hcontr).1 (by decide)
  rw [parseRedisUri_scheme_redis hnuri (by rw [hup])]
  rw [hup]
  dsimp only
  rw [if_neg (netlocStandalone_ne_nil hnil)]
  exact parseStandaloneUri_render hhost hauth hport hdb

/-- C4 (witness): the amended claim at the concrete standalone URI
`redis://u:pw@ExHost:6380/2`. -/
theorem C4_witness :
    parseRedisUri (renderStandalone (some ("u".data, "pw".data))
      "ExHost".data (some "6380".data) (some "2".data)) =
      .ok { host := "exhost".data, port := 6380,
            password := some "pw".data, db := 2,
            mode := .STANDALONE, ssl := false } :=
  C4_standalone_roundtrip (some ("u".data, "pw".data)) "ExHost".data
    (some "6380".data) (some "2".data) (by decide)
    (fun hcontr => absurd hcontr (by decide))
    (by rintro u pw h; cases h; exact ⟨by decide, by decide, by decide⟩)
    (by rintro ps h; cases h
        exact ⟨by decide, by decide, by decide, by decide⟩)
    (by rintro ds h; cases h; exact ⟨by decide, by decide⟩)

/-- C5: for every sentinel URI with a non-empty comma-separated list of
wellformed host fragments, the descriptor's `sentinel_hosts` is exactly
that fragment list (same length, order preserved, duplicates kept), and
the top-level `host`/`port` are the components `_parse_host_port`
extracts from the first entry. -/
theorem C5_sentinel_hosts (f0 : Str) (rest : List Str) (svc : Str)
    (h0 : Str) (p0 : Int)
    (hfr : ∀ f ∈ f0 :: rest, f ≠ [] ∧ f.all isFragChar)
    (hsvc : svc ≠ [] ∧ svc.all isHostChar)
    (hport : parseHostPort f0 = .ok (h0, p0)) :
    parseRedisUri (renderSentinel (f0 :: rest) svc) =
      .ok { host := h0
            port := p0
            password := none
            mode := .SENTINEL
            sentinel_hosts := some (f0 :: rest)
            sentinel_password := none
            service_name := some svc } := by
  have hup := @pyUrlparse_renderSentinel (f0 :: rest) svc
    (fun f hf a ha =>
      (isFragChar_facts (List.all_eq_true.mp (hfr f hf).2 a ha)).2.2.1)
    (fun a ha =>
      ⟨(isHostChar_ne_path (List.all_eq_true.mp hsvc.2 a ha)).2.2,
       (isHostChar_ne_path (List.all_eq_true.mp hsvc.2 a ha)).2.1⟩)
  have hnuri : renderSentinel (f0 :: rest) svc ≠ [] := by
    unfold renderSentinel
    intro hcontr
    exact absurd (List.append_eq_nil.mp hcontr).1 (by decide)
  rw [parseRedisUri_scheme_sentinel hnuri (by rw [hup])]
  rw [hup]
  exact parseSentinelUri_render hfr hsvc.1 hport

/-- C5 (witness): the concrete sentinel URI
`redis+sentinel://s1:26379,s2/mymaster`. -/
theorem C5_witness :
    parseRedisUri (renderSentinel ["s1:26379".data, "s2".data]
      "mymaster".data) =
      .ok { host := "s1".data
            port := 26379
            password := none
            mode := .SENTINEL
            sentinel_hosts := some ["s1:26379".data, "s2".data]
            sentinel_password := none
            service_name := some "mymaster".data } :=
  C5_sentinel_hosts "s1:26379".data ["s2".data] "mymaster".data
    "s1".data 26379
    (by intro f hf
        rcases List.mem_cons.mp hf with h | hf2
        · subst h; exact ⟨by decide, by decide⟩
        · rcases List.mem_cons.mp hf2 with h | h
          · subst h; exact ⟨by decide, by decide⟩
          · exact absurd h (List.not_mem_nil f))
    ⟨by decide, by decide⟩ rfl

/-- C9: in both sentinel and cluster URIs, empty or whitespace-only
comma-separated fragments are silently dropped and kept fragments are
stripped of surrounding whitespace — concretely,
`redis+cluster://a:7000,,b:7001,` and `redis+cluster://a:7000, b:7001`
both yield exactly the two nodes `a:7000` and `b:7001`, and
`redis+sentinel://s1:26379,, s2 /m` yields exactly the two sentinel
hosts `s1:26379` and `s2`; and for every cluster and every sentinel URI
rendered from netloc-safe fragments, the mode's empty-host-list error
is raised if and only if every fragment strips to empty. -/
theorem C9_fragment_filtering :
    (parseRedisUri "redis+cluster://a:7000,,b:7001,".data).map
      RedisConnectionConfig.cluster_nodes =
      .ok (some ["a:7000".data, "b:7001".data]) ∧
    (parseRedisUri "redis+cluster://a:7000, b:7001".data).map
      RedisConnectionConfig.cluster_nodes =
      .ok (some ["a:7000".data, "b:7001".data]) ∧
    (parseRedisUri "redis+sentinel://s1:26379,, s2 /m".data).map
      RedisConnectionConfig.sentinel_hosts =
      .ok (some ["s1:26379".data, "s2".data]) ∧
    (∀ frags : List Str,
      (∀ f ∈ frags, f.all (fun c => isFragChar c || c = ' ')) →
      (parseRedisUri (renderCluster frags) =
          .error "Cluster URI must include at least one node".data ↔
        ∀ f ∈ frags, pyStrip f = [])) ∧
    (∀ (frags : List Str) (svc : Str),
      (∀ f ∈ frags, f.all (fun c => isFragChar c || c = ' ')) →
      svc.all isHostChar →
      (parseRedisUri (renderSentinel frags svc) =
          .error "Sentinel URI must include at least one sentinel host".data ↔
        ∀ f ∈ frags, pyStrip f = [])) := by
  refine ⟨rfl, rfl, rfl, ?_, ?_⟩
  · intro frags hfr
    have hchar : ∀ f ∈ frags, ∀ a ∈ f,
        a ≠ '@' ∧ a ≠ ',' ∧ isNetlocDelim a = false := by
      intro f hf a ha
      have hx := List.all_eq_true.mp (hfr f hf) a ha
      simp only [Bool.or_eq_true, decide_eq_true_eq] at hx
      rcases hx with hx | rfl
      · have := isFragChar_facts hx
        exact ⟨this.1, this.2.1, this.2.2.1⟩
      · exact ⟨by decide, by decide, by decide⟩
    have hup := pyUrlparse_renderCluster
      (fun f hf a ha => (hchar f hf a ha).2.2)
    have hnuri : renderCluster frags ≠ [] := by
      unfold renderCluster
      intro hcontr
      exact absurd (List.append_eq_nil.mp hcontr).1 (by decide)
    rw [parseRedisUri_scheme_cluster hnuri (by rw [hup])]
    rw [hup]
    have hhl : parseHostList (joinSep ',' frags) =
        (frags.map pyStrip).filter (· ≠ []) :=
      parseHostList_joinSep (fun f hf =>
        ⟨fun hm => (hchar f hf _ hm).1 rfl,
         fun hm => (hchar f hf _ hm).2.1 rfl⟩)
    unfold parseClusterUri
    dsimp only
    rw [hhl]
    cases hk : (frags.map pyStrip).filter (· ≠ []) with
    | nil =>
      dsimp only
      refine iff_of_true rfl ?_
      intro f hf
      have := List.filter_eq_nil_iff.mp hk (pyStrip f)
        (List.mem_map_of_mem _ hf)
      simpa using this
    | cons k ks =>
      dsimp only
      have hkeep : ¬ (∀ f ∈ frags, pyStrip f = []) := by
        intro hall
        have hnil : (frags.map pyStrip).filter (· ≠ []) = [] := by
          apply List.filter_eq_nil_iff.mpr
          intro a ha
          obtain ⟨f, hf, rfl⟩ := List.mem_map.mp ha
          simp [hall f hf]
        rw [hk] at hnil
        exact absurd hnil (by simp)
      refine iff_of_false ?_ hkeep
      cases hpp : parseHostPort k with
      | error e =>
        dsimp only
        intro hcontr
        have hem := Except.error.inj hcontr
        rw [parseHostPort_error_msg hpp] at hem
        exact absurd hem (by decide)
      | ok hp =>
        obtain ⟨kh, kp⟩ := hp
        dsimp only
        intro hcontr
        obtain ⟨h1, h2⟩ := parseHostPort_ok_range hpp
        unfold mkConfig at hcontr
        split at hcontr
        · rename_i e heq
          rw [(postInitError_none_iff _).mpr
            ⟨h1, h2, by norm_num, by norm_num, by norm_num, by norm_num⟩]
            at heq
          exact Option.noConfusion heq
        · exact Except.noConfusion hcontr
  · intro frags svc hfr hsvc
    have hchar : ∀ f ∈ frags, ∀ a ∈ f,
        a ≠ '@' ∧ a ≠ ',' ∧ isNetlocDelim a = false := by
      intro f hf a ha
      have hx := List.all_eq_true.mp (hfr f hf) a ha
      simp only [Bool.or_eq_true, decide_eq_true_eq] at hx
      rcases hx with hx | rfl
      · have := isFragChar_facts hx
        exact ⟨this.1, this.2.1, this.2.2.1⟩
      · exact ⟨by decide, by decide, by decide⟩
    have hup := @pyUrlparse_renderSentinel frags svc
      (fun f hf a ha => (hchar f hf a ha).2.2)
      (fun a ha =>
        ⟨(isHostChar_ne_path (List.all_eq_true.mp hsvc a ha)).2.2,
         (isHostChar_ne_path (List.all_eq_true.mp hsvc a ha)).2.1⟩)
    have hnuri : renderSentinel frags svc ≠ [] := by
      unfold renderSentinel
      intro hcontr
      exact absurd (List.append_eq_nil.mp hcontr).1 (by decide)
    rw [parseRedisUri_scheme_sentinel hnuri (by rw [hup])]
    rw [hup]
    have hhl : parseHostList (joinSep ',' frags) =
        (frags.map pyStrip).filter (· ≠ []) :=
      parseHostList_joinSep (fun f hf =>
        ⟨fun hm => (hchar f hf _ hm).1 rfl,
         fun hm => (hchar f hf _ hm).2.1 rfl⟩)
    unfold parseSentinelUri
    dsimp only
    rw [hhl]
    cases hk : (frags.map pyStrip).filter (· ≠ []) with
    | nil =>
      dsimp only
      refine iff_of_true rfl ?_
      intro f hf
      have := List.filter_eq_nil_iff.mp hk (pyStrip f)
        (List.mem_map_of_mem _ hf)
      simpa using this
    | cons k ks =>
      dsimp only
      have hkeep : ¬ (∀ f ∈ frags, pyStrip f = []) := by
        intro hall
        have hnil : (frags.map pyStrip).filter (· ≠ []) = [] := by
          apply List.filter_eq_nil_iff.mpr
          intro a ha
          obtain ⟨f, hf, rfl⟩ := List.mem_map.mp ha
          simp [hall f hf]
        rw [hk] at hnil
        exact absurd hnil (by simp)
      refine iff_of_false ?_ hkeep
      by_cases hcond : ('/' :: svc : Str) = [] ∨ ¬ ('/' :: svc).length > 1
      · rw [if_pos hcond]
        intro hcontr
        exact absurd (Except.error.inj hcontr) (by decide)
      · rw [if_neg hcond]
        cases hpp : parseHostPort k with
        | error e =>
          dsimp only
          intro hcontr
          have hem := Except.error.inj hcontr
          rw [parseHostPort_error_msg hpp] at hem
          exact absurd hem (by decide)
        | ok hp =>
          obtain ⟨kh, kp⟩ := hp
          dsimp only
          intro hcontr
          obtain ⟨h1, h2⟩ := parseHostPort_ok_range hpp
          unfold mkConfig at hcontr
          split at hcontr
          · rename_i e heq
            rw [(postInitError_none_iff _).mpr
              ⟨h1, h2, by norm_num, by norm_num, by norm_num, by norm_num⟩]
              at heq
            exact Option.noConfusion heq
          · exact Except.noConfusion hcontr

/-- C9 (witness): a cluster URI and a sentinel URI whose only fragment
is a single space each raise their mode's empty-host-list error, by the
two iffs of the claim. -/
theorem C9_witness :
    parseRedisUri (renderCluster [" ".data]) =
      .error "Cluster URI must include at least one node".data ∧
    parseRedisUri (renderSentinel [" ".data] "m".data) =
      .error "Sentinel URI must include at least one sentinel host".data :=
  ⟨(C9_fragment_filtering.2.2.2.1 [" ".data] (by decide)).mpr (by decide),
   (C9_fragment_filtering.2.2.2.2 [" ".data] "m".data (by decide)
      (by decide)).mpr (by decide)⟩

/-- C10 (witness): on `rediss://host` the parsed host is non-blank, so
`create_config_from_uri` raises the SSL-certificate-requirements
error. -/
theorem C10_witness :
    createConfigFromUri "rediss://host".data {} =
      .error
        "SSL certificate requirements must be specified when SSL is enabled".data :=
  (C10_rediss_disagreement "rediss://host".data
    { host := "host".data, ssl := true } rfl rfl).2.2.1 (by decide)
